import Mathlib

/-!
Shallow embedding of the noughts-and-crosses game engine
(src/game/app/game_base_class.py, src/game/constants/game_constants.py,
src/app/player_base_class.py) and its minimax AI
(src/automation/minimax/minimax_ai.py).

Conventions of the embedding:
* numpy 2-D float arrays of board markings become row-major lists of rows of
  integers (all values actually stored are 0, 1, -1);
* in-place mutation becomes explicit state passing: methods that mutate
  the engine object take and return a GameState;
* Python exceptions become Except String results;
* Python ints are Int; array shapes and list indices are Nat.

The repository snapshot is version-skewed: minimax_ai.py calls base-class
methods with signatures that do not exist in src/game/app/game_base_class.py
(mark_board with row_index/col_index keywords, get_winning_player without the
winning_game flag) and imports a TerminalScore enum whose module is absent
from src.  Those missing callees are modelled from the spec below, each with
a doc comment beginning "Modelled from the spec:".  Everything else is
translated directly from the source.
-/

/-- A playing grid: row-major list of rows of integer cell markings
(the numpy array self.playing_grid). -/
abbrev Grid := List (List Int)

/-- Number of rows of the stored array (playing_grid.shape[0]). -/
def shape0 (g : Grid) : Nat := g.length

/-- Number of columns of the stored array (playing_grid.shape[1]); numpy
arrays are rectangular, read off the first row. -/
def shape1 (g : Grid) : Nat := (g.getD 0 []).length

/-- Well-formedness of the list-of-lists representation: every row has the
declared column count (automatic for a numpy array). -/
def WFGrid (g : Grid) : Prop := ∀ row ∈ g, row.length = shape1 g

/-- Read the cell at (row, col); only used at in-bounds indices, where it
agrees with numpy indexing playing_grid[row, col]. -/
def cell (g : Grid) (r c : Nat) : Int := (g.getD r []).getD c 0

/-- Read a cell addressed with integer coordinates (used by the win search
after its own bounds filter, so negative indices never reach the array). -/
def cellI (g : Grid) (p : Int × Int) : Int :=
  if 0 ≤ p.1 ∧ 0 ≤ p.2 then cell g p.1.toNat p.2.toNat else 0

/-- Write value v at (row, col): playing_grid[row, col] = v. -/
def setCell (g : Grid) (r c : Nat) (v : Int) : Grid :=
  g.set r ((g.getD r []).set c v)

/-- The all-zero m-by-n grid: np.zeros(shape=(m, n)). -/
def zeroGrid (m n : Nat) : Grid := List.replicate m (List.replicate n 0)

/-- Sum of all cells: playing_grid.sum().sum(). -/
def gridSum (g : Grid) : Int := (g.map List.sum).sum

/-- BoardMarking.X.value from game_constants.py. -/
def BoardMarking_X : Int := 1

/-- BoardMarking.O.value from game_constants.py. -/
def BoardMarking_O : Int := -1

/-- StartingPlayer.PLAYER_X.value from game_constants.py. -/
def StartingPlayer_PLAYER_X : Int := 1

/-- StartingPlayer.RANDOM.value from game_constants.py. -/
def StartingPlayer_RANDOM : Int := 0

/-- StartingPlayer.PLAYER_O.value from game_constants.py. -/
def StartingPlayer_PLAYER_O : Int := -1

/-- The BoardMarking(v).value round trip: the Python enum constructor raises
ValueError unless v is one of the two member values 1 and -1. -/
def BoardMarking_value (v : Int) : Except String Int :=
  if v = BoardMarking_X ∨ v = BoardMarking_O then .ok v
  else .error "ValueError: v is not a valid BoardMarking"

/-- Player from src/app/player_base_class.py: a name, the marking value the
player owns, and a cumulative win count. -/
structure Player where
  name : String
  active_symbol : Int
  active_game_win_count : Int := 0
deriving DecidableEq, Repr

/-- NoughtsAndCrossesEssentialParameters from game_base_class.py.  The Python
dataclass defaults every field to None; the claims only exercise integer
dimensions and win length, so those fields are Int here, while the
starting player value keeps its optionality. -/
structure NoughtsAndCrossesEssentialParameters where
  game_rows_m : Int
  game_cols_n : Int
  win_length_k : Int
  player_x : Player
  player_o : Player
  starting_player_value : Option Int
deriving DecidableEq, Repr

/-- The search directions returned by NoughtsAndCrosses._get_search_directions:
[np.array([1, 0]), np.array([0, 1]), np.array([1, -1]), np.array([1, 1])]. -/
def get_search_directions : List (Int × Int) := [(1, 0), (0, 1), (1, -1), (1, 1)]

/-- The mutable attributes of a NoughtsAndCrosses instance. -/
structure GameState where
  game_rows_m : Int
  game_cols_n : Int
  win_length_k : Int
  player_x : Player
  player_o : Player
  starting_player_value : Option Int
  draw_count : Int
  playing_grid : Grid
  search_directions : List (Int × Int)
deriving DecidableEq, Repr

/-- NoughtsAndCrosses.__init__: copies the setup parameters onto the instance
and allocates the zero grid.  The constructor performs no validation of its
own; the only failure is np.zeros raising ValueError on a negative
dimension. -/
def NoughtsAndCrosses_init (setup_parameters : NoughtsAndCrossesEssentialParameters)
    (draw_count : Int := 0) : Except String GameState :=
  if setup_parameters.game_rows_m < 0 ∨ setup_parameters.game_cols_n < 0 then
    .error "ValueError: negative dimensions are not allowed"
  else
    .ok { game_rows_m := setup_parameters.game_rows_m
          game_cols_n := setup_parameters.game_cols_n
          win_length_k := setup_parameters.win_length_k
          player_x := setup_parameters.player_x
          player_o := setup_parameters.player_o
          starting_player_value := setup_parameters.starting_player_value
          draw_count := draw_count
          playing_grid := zeroGrid setup_parameters.game_rows_m.toNat
            setup_parameters.game_cols_n.toNat
          search_directions := get_search_directions }

/-- NoughtsAndCrosses.set_starting_player.  np.random.choice between the two
marking values is made explicit through the coin argument; the raise is the
ValueError branch of the source.  Note the source reaches the random branch
whenever the stored starting_player_value is None, regardless of the
input. -/
def set_starting_player (st : GameState) (starting_player_value : Option Int)
    (coin : Bool) : Except String GameState :=
  let v : Option Int := match starting_player_value with
    | none => st.starting_player_value
    | some x => some x
  if v = some StartingPlayer_RANDOM ∨ st.starting_player_value = none then
    .ok { st with starting_player_value := some (if coin then BoardMarking_X else BoardMarking_O) }
  else if v = some StartingPlayer_PLAYER_X then
    .ok { st with starting_player_value := some BoardMarking_X }
  else if v = some StartingPlayer_PLAYER_O then
    .ok { st with starting_player_value := some BoardMarking_O }
  else
    .error "ValueError: starting_player_value is not in the StartingPlayer Enum"

/-- NoughtsAndCrosses.get_player_turn on an explicit grid, with the stored
starting_player_value passed explicitly: if the board sum is nonzero the
starting player has had an extra go, so it is the other player's turn.
The result goes through the BoardMarking enum constructor, which fails for a
marking value outside 1 and -1. -/
def get_player_turn (starting_player_value : Int) (playing_grid : Grid) :
    Except String Int :=
  if gridSum playing_grid ≠ 0 then BoardMarking_value (-starting_player_value)
  else BoardMarking_value starting_player_value

/-- Grid-level core of NoughtsAndCrosses.mark_board: if the target cell is
empty, write the marking produced by get_player_turn, otherwise raise
ValueError.  The write happens strictly after the emptiness check, so a
raising call leaves the grid untouched. -/
def mark_board_grid (starting_player_value : Int) (playing_grid : Grid)
    (marking_index : Nat × Nat) : Except String Grid :=
  if cell playing_grid marking_index.1 marking_index.2 = 0 then
    match get_player_turn starting_player_value playing_grid with
    | .error e => .error e
    | .ok marking => .ok (setCell playing_grid marking_index.1 marking_index.2 marking)
  else
    .error "ValueError: mark_board attempted to mark non-empty cell"

/-- NoughtsAndCrosses.mark_board: defaults to the live grid when no grid is
supplied, in which case the instance attribute is updated; a supplied grid
(a copy, as used by the search) is marked without touching the instance.
The Python None starting player would raise inside BoardMarking; here it is
read with a default that likewise fails BoardMarking validation. -/
def mark_board (st : GameState) (marking_index : Nat × Nat)
    (playing_grid : Option Grid) : Except String (GameState × Grid) :=
  let g := playing_grid.getD st.playing_grid
  match mark_board_grid (st.starting_player_value.getD 0) g marking_index with
  | .error e => .error e
  | .ok g' =>
    match playing_grid with
    | none => .ok ({ st with playing_grid := g' }, g')
    | some _ => .ok (st, g')

/-- NoughtsAndCrosses.check_for_draw: np.all(playing_grid != 0). -/
def check_for_draw (playing_grid : Grid) : Bool :=
  playing_grid.all fun row => row.all fun v => v ≠ 0

/-- NoughtsAndCrosses.get_winning_player as it stands in src (lines 165-186):
takes the winning_game flag, returns the player owning the previous mark,
and raises ValueError when the flag is false. -/
def get_winning_player (st : GameState) (winning_game : Bool)
    (playing_grid : Option Grid) : Except String Player :=
  let g := playing_grid.getD st.playing_grid
  match get_player_turn (st.starting_player_value.getD 0) g with
  | .error e => .error e
  | .ok turn =>
    let previous_mark_made_by := -turn
    if winning_game ∧ previous_mark_made_by = BoardMarking_X then .ok st.player_x
    else if winning_game ∧ previous_mark_made_by = BoardMarking_O then .ok st.player_o
    else .error "ValueError: Attempted to get_winning_player from a non-winning board scenario"

/-- Maximum of a list of naturals with 0 for the empty list (Python max over
a nonempty numpy array; the lists this is applied to are nonempty). -/
def listMax (l : List Nat) : Nat := l.foldl Nat.max 0

/-- np.convolve(vals, np.ones(k, dtype=int), mode="valid"): when the sequence
is at least as long as the kernel this is the list of all width-k window
sums; when it is shorter, numpy returns k - len + 1 copies of the total sum
(the roles of kernel and sequence swap). -/
def windowSums (k : Nat) (vals : List Int) : List Int :=
  if k ≤ vals.length then
    (List.range (vals.length + 1 - k)).map fun i => ((vals.drop i).take k).sum
  else
    List.replicate (k + 1 - vals.length) vals.sum

/-- The 2k-1 indices from (k-1) steps before to (k-1) steps after the last
played index along one search direction (offsets range(-k+1, k)). -/
def unfiltered_indexes_to_search (k : Nat) (last_played_index : Int × Int)
    (search_direction : Int × Int) : List (Int × Int) :=
  (List.range (2 * k - 1)).map fun t =>
    (last_played_index.1 + ((t : Int) - ((k : Int) - 1)) * search_direction.1,
     last_played_index.2 + ((t : Int) - ((k : Int) - 1)) * search_direction.2)

/-- The same indices clipped to the board bounds (the valid_indexes_to_search
filter of win_check_and_location_search). -/
def valid_indexes_to_search (k : Nat) (g : Grid) (last_played_index : Int × Int)
    (search_direction : Int × Int) : List (Int × Int) :=
  (unfiltered_indexes_to_search k last_played_index search_direction).filter
    fun p => 0 ≤ p.1 ∧ p.1 < (shape0 g : Int) ∧ 0 ≤ p.2 ∧ p.2 < (shape1 g : Int)

/-- The cell values along the clipped index list (array_to_search). -/
def array_to_search (k : Nat) (g : Grid) (last_played_index : Int × Int)
    (search_direction : Int × Int) : List Int :=
  (valid_indexes_to_search k g last_played_index search_direction).map (cellI g)

/-- streak_lengths: absolute values of the valid-mode convolution of the
searched array with a width-k all-ones kernel. -/
def streak_lengths (k : Nat) (g : Grid) (last_played_index : Int × Int)
    (search_direction : Int × Int) : List Nat :=
  (windowSums k (array_to_search k g last_played_index search_direction)).map Int.natAbs

/-- winning_streak_found for one direction: max(streak_lengths) == k. -/
def winning_streak_found (k : Nat) (g : Grid) (last_played_index : Int × Int)
    (search_direction : Int × Int) : Bool :=
  listMax (streak_lengths k g last_played_index search_direction) = k

/-- The winning window reported for a direction: the k index positions
starting at the first entry of streak_lengths that equals k
(np.where(streak_lengths == k) followed by the slice of length k). -/
def win_streak_location_indexes (k : Nat) (g : Grid) (last_played_index : Int × Int)
    (search_direction : Int × Int) : List (Int × Int) :=
  let j := (streak_lengths k g last_played_index search_direction).findIdx (· = k)
  ((valid_indexes_to_search k g last_played_index search_direction).drop j).take k

/-- The direction loop of win_check_and_location_search: return at the first
direction showing a winning streak, with the location only when requested;
fall through to (False, None). -/
def win_search_loop (k : Nat) (g : Grid) (last_played_index : Int × Int)
    (get_win_location : Bool) : List (Int × Int) → Bool × Option (List (Int × Int))
  | [] => (false, none)
  | d :: ds =>
    if winning_streak_found k g last_played_index d then
      if get_win_location then
        (true, some (win_streak_location_indexes k g last_played_index d))
      else (true, none)
    else win_search_loop k g last_played_index get_win_location ds

/-- NoughtsAndCrosses.win_check_and_location_search on an explicit grid, with
the win length passed as a natural number (the instance attribute
self.win_length_k; all results below assume it is at least 1, as any playable
configuration has). -/
def win_check_and_location_search (k : Nat) (g : Grid) (last_played_index : Int × Int)
    (get_win_location : Bool) : Bool × Option (List (Int × Int)) :=
  win_search_loop k g last_played_index get_win_location get_search_directions

/-- The specification predicate of the detector, following the claim: along
one of the four canonical directions, some width-k window of the clipped
sequence of cells through the last-played index sums to absolute value k. -/
def SpecLineWin (k : Nat) (g : Grid) (last_played_index : Int × Int) : Prop :=
  ∃ d ∈ get_search_directions, ∃ i,
    i + k ≤ (array_to_search k g last_played_index d).length ∧
    ((((array_to_search k g last_played_index d).drop i).take k).sum).natAbs = k

/-- NoughtsAndCrosses._search_array_list_for_win: first array whose width-k
convolution reaches absolute value k wins. -/
def search_array_list_for_win (k : Nat) (array_list : List (List Int)) : Bool :=
  array_list.any fun a => listMax ((windowSums k a).map Int.natAbs) = k

/-- NoughtsAndCrosses._get_row_arrays. -/
def get_row_arrays (m : Nat) (g : Grid) : List (List Int) :=
  (List.range m).map fun r => g.getD r []

/-- NoughtsAndCrosses._get_col_arrays: playing_grid[:, c] for each column. -/
def get_col_arrays (n : Nat) (g : Grid) : List (List Int) :=
  (List.range n).map fun c => g.map fun row => row.getD c 0

/-- np.diagonal(g, offset): the south-east diagonal with the given offset. -/
def diagonal (g : Grid) (o : Int) : List Int :=
  if 0 ≤ o then
    (List.range (min (shape0 g) (shape1 g - o.toNat))).map fun i => cell g i (i + o.toNat)
  else
    (List.range (min (shape0 g - (-o).toNat) (shape1 g))).map fun i => cell g (i + (-o).toNat) i

/-- NoughtsAndCrosses._get_south_east_diagonal_arrays: diagonals with offsets
range(-(m - k), 0) ++ range(0, n - k + 1); both Python ranges are empty when
their upper end is not positive, which the truncated Nat subtractions
reproduce. -/
def get_south_east_diagonal_arrays (m n k : Nat) (g : Grid) : List (List Int) :=
  (((List.range (m - k)).map fun i => (i : Int) - ((m : Int) - k)) ++
    ((List.range (n + 1 - k)).map fun i => (i : Int))).map (diagonal g)

/-- NoughtsAndCrosses._get_north_east_diagonal_arrays: the south-east
diagonals of the upside-down grid (np.flipud). -/
def get_north_east_diagonal_arrays (m n k : Nat) (g : Grid) : List (List Int) :=
  get_south_east_diagonal_arrays m n k g.reverse

/-- NoughtsAndCrosses._whole_board_search: rows, then columns, then the two
diagonal families; the Python sum of booleans is used by its callers only for
truthiness, i.e. as a disjunction. -/
def whole_board_search (m n k : Nat) (g : Grid) : Bool :=
  search_array_list_for_win k (get_row_arrays m g) ∨
  search_array_list_for_win k (get_col_arrays n g) ∨
  search_array_list_for_win k (get_south_east_diagonal_arrays m n k g) ∨
  search_array_list_for_win k (get_north_east_diagonal_arrays m n k g)

/-- Modelled from the spec: the TerminalScore enum imported by minimax_ai.py
(module automation/minimax/constants/terminal_board_scores.py, absent from
src).  Spec section 3: MAX_WIN is a large positive sentinel. -/
def TerminalScore_MAX_WIN : Int := 100

/-- Modelled from the spec: MAX_LOSS, a large negative sentinel, the negation
of MAX_WIN. -/
def TerminalScore_MAX_LOSS : Int := -100

/-- Modelled from the spec: DRAW, the zero sentinel. -/
def TerminalScore_DRAW : Int := 0

/-- The attributes of a NoughtsAndCrossesMinimax instance: the base-class
state plus the designated maximising player. -/
structure MinimaxState extends GameState where
  maximising_player : Player
deriving DecidableEq, Repr

/-- Modelled from the spec: the get_winning_player signature actually called
by minimax_ai.py (an optional grid, no winning_game flag, returning the
winning Player or None), which is absent from src/game/app/game_base_class.py.
Per spec sections 4.1 and 4.2 it reports the player owning the marking placed
by the previous mover when the board is winning, using the whole-board scan
as no last-move index is available, and None otherwise.  It is only
meaningful for a set starting player with a valid marking value, which every
result below assumes. -/
def get_winning_player_opt (st : GameState) (playing_grid : Option Grid) :
    Option Player :=
  let g := playing_grid.getD st.playing_grid
  if whole_board_search st.game_rows_m.toNat st.game_cols_n.toNat
      st.win_length_k.toNat g then
    match get_player_turn (st.starting_player_value.getD 0) g with
    | .ok turn => if -turn = BoardMarking_X then some st.player_x else some st.player_o
    | .error _ => none
  else none

/-- NoughtsAndCrossesMinimax.is_terminal: a winning player exists or the
board is a draw.  The source passes the searched grid to both callees. -/
def is_terminal (st : MinimaxState) (playing_grid : Grid) : Bool :=
  (get_winning_player_opt st.toGameState (some playing_grid)).isSome ||
    check_for_draw playing_grid

/-- NoughtsAndCrossesMinimax.evaluate_board_to_maximising_player, faithful to
the source calls: self.get_winning_player() and self.check_for_draw() are
invoked with no grid argument, so the LIVE grid of the instance is evaluated
and the playing_grid parameter is ignored (and under the src base class the
first call would not even type-check, since get_winning_player there demands
a winning_game flag). -/
def evaluate_board_to_maximising_player (st : MinimaxState) (_playing_grid : Grid)
    (search_depth : Nat) : Except String Int :=
  match get_winning_player_opt st.toGameState none with
  | some winning_player =>
    if winning_player = st.maximising_player then
      .ok (TerminalScore_MAX_WIN - search_depth)
    else
      .ok (TerminalScore_MAX_LOSS + search_depth)
  | none =>
    if check_for_draw st.playing_grid then .ok TerminalScore_DRAW
    else .error "ValueError: Attempted to evaluate a playing_grid scenario that was not terminal"

/-- NoughtsAndCrossesMinimax.get_available_cell_indices: the indices of the
empty cells in numpy argwhere (row-major) order.  The random.shuffle of the
source only permutes this list; none of the results below depend on the
iteration order, so the permutation is taken to be the identity. -/
def get_available_cell_indices (playing_grid : Grid) : List (Nat × Nat) :=
  (List.range playing_grid.length).flatMap fun r =>
    (List.range ((playing_grid.getD r []).length)).filterMap fun c =>
      if cell playing_grid r c = 0 then some (r, c) else none

/-- Python numbers extended with the two infinities used as the initial
alpha, beta, max_score and min_score values (-math.inf and math.inf). -/
inductive XInt where
  | ninf
  | fin (n : Int)
  | pinf
deriving DecidableEq, Repr

/-- Strict comparison on extended integers. -/
def XInt.lt : XInt → XInt → Bool
  | .ninf, .ninf => false
  | .ninf, _ => true
  | .fin a, .fin b => a < b
  | .fin _, .pinf => true
  | .fin _, .ninf => false
  | .pinf, _ => false

/-- Non-strict comparison on extended integers. -/
def XInt.le (a b : XInt) : Bool := !(XInt.lt b a)

/-- Python max on extended integers. -/
def xmax (a b : XInt) : XInt := if XInt.lt a b then b else a

/-- Python min on extended integers. -/
def xmin (a b : XInt) : XInt := if XInt.lt b a then b else a

/-- The dynamically typed values the Python minimax method can hand back: a
bare score (terminal branch), a bare move index (the return best_move
statements), a (score, move) pair (the shape the spec describes, never built
by this source), or None (best_move never assigned). -/
inductive PyRet where
  | score (s : Int)
  | move (m : Nat × Nat)
  | pair (s : Int) (m : Nat × Nat)
  | pynone
deriving DecidableEq, Repr

/-- Whether a returned value is a (score, move) pair. -/
def PyRet.isPair : PyRet → Bool
  | .pair _ _ => true
  | _ => false

/-- return best_move: Python hands back the Optional move as-is. -/
def mkRet : Option (Nat × Nat) → PyRet
  | some m => .move m
  | none => .pynone

/-- One candidate-move loop of minimax (the for-loops of the maximiser and
minimiser branches), parameterised over the recursive call.  Each iteration
copies the grid, marks the candidate cell on the copy through the mark_board
path with an explicitly supplied grid (the source calls mark_board with
row_index/col_index keywords, a signature absent from the src base class but
with the documented mark semantics; modelled from the spec accordingly),
recurses with the turn flag flipped, and then treats the returned value as a
number: when the recursion hands back a move tuple or None instead of a
score, the Python comparison with max_score / min_score raises TypeError.
The loop breaks as soon as beta <= alpha and finally returns best_move. -/
def minimax_loop
    (recCall : MinimaxState → Grid → Nat → Bool → XInt → XInt →
      Except String (MinimaxState × PyRet))
    (st : MinimaxState) (g : Grid) (search_depth : Nat) (maximisers_move : Bool) :
    List (Nat × Nat) → XInt → XInt → XInt → Option (Nat × Nat) →
    Except String (MinimaxState × PyRet)
  | [], _, _, _, best_move => .ok (st, mkRet best_move)
  | mv :: rest, alpha, beta, running_score, best_move =>
    match mark_board st.toGameState mv (some g) with
    | .error e => .error e
    | .ok (st1, playing_grid_copy) =>
    match recCall { st1 with maximising_player := st.maximising_player }
        playing_grid_copy (search_depth + 1) (!maximisers_move) alpha beta with
    | .error e => .error e
    | .ok (st2, res) =>
    match res with
    | .score s =>
      if maximisers_move then
        let improved := XInt.lt running_score (.fin s)
        let running_score' := if improved then .fin s else running_score
        let best_move' := if improved then some mv else best_move
        let alpha' := xmax alpha (.fin s)
        if XInt.le beta alpha' then .ok (st2, mkRet best_move')
        else minimax_loop recCall st2 g search_depth maximisers_move rest alpha' beta running_score' best_move'
      else
        let improved := XInt.lt (.fin s) running_score
        let running_score' := if improved then .fin s else running_score
        let best_move' := if improved then some mv else best_move
        let beta' := xmin beta (.fin s)
        if XInt.le beta' alpha then .ok (st2, mkRet best_move')
        else minimax_loop recCall st2 g search_depth maximisers_move rest alpha beta' running_score' best_move'
    | _ => .error "TypeError: comparison not supported between a non-number and a number"

/-- One unfolding of NoughtsAndCrossesMinimax.minimax: evaluate a terminal
grid, otherwise run the maximiser or minimiser loop over the available cells
starting from max_score = -inf / min_score = +inf and best_move = None. -/
def minimax_step
    (recCall : MinimaxState → Grid → Nat → Bool → XInt → XInt →
      Except String (MinimaxState × PyRet))
    (st : MinimaxState) (playing_grid : Grid) (search_depth : Nat)
    (maximisers_move : Bool) (alpha beta : XInt) :
    Except String (MinimaxState × PyRet) :=
  if is_terminal st playing_grid then
    match evaluate_board_to_maximising_player st playing_grid search_depth with
    | .error e => .error e
    | .ok s => .ok (st, .score s)
  else if maximisers_move then
    minimax_loop recCall st playing_grid search_depth true
      (get_available_cell_indices playing_grid) alpha beta .ninf none
  else
    minimax_loop recCall st playing_grid search_depth false
      (get_available_cell_indices playing_grid) alpha beta .pinf none

/-- NoughtsAndCrossesMinimax.minimax.  The Python recursion always
terminates because every recursive call fills one cell of a finite grid; the
fuel argument makes that measure explicit (any fuel of at least the number
of empty cells plus one behaves like the source). -/
def minimax : Nat → MinimaxState → Grid → Nat → Bool → XInt → XInt →
    Except String (MinimaxState × PyRet)
  | 0 => fun _ _ _ _ _ _ => .error "RecursionError: maximum recursion depth exceeded"
  | fuel + 1 => minimax_step (minimax fuel)

deriving instance DecidableEq for Except

/-- A player owning the X marking, used in the concrete scenarios below. -/
def playerX : Player := { name := "Maximiser", active_symbol := 1 }

/-- A player owning the O marking, used in the concrete scenarios below. -/
def playerO : Player := { name := "Human", active_symbol := -1 }

/-- A 3-by-3, win-length-3 base engine state with player X to start and an
all-empty live grid. -/
def baseState : GameState :=
  { game_rows_m := 3, game_cols_n := 3, win_length_k := 3,
    player_x := playerX, player_o := playerO,
    starting_player_value := some 1, draw_count := 0,
    playing_grid := zeroGrid 3 3,
    search_directions := get_search_directions }

/-- A live grid holding a completed top row of X marks (a whole-board win
for the X player). -/
def liveWinGrid : Grid := [[1, 1, 1], [0, 0, 0], [0, 0, 0]]

/-- Minimax engine whose maximising player is X and whose live grid shows an
X win; used to drive the source evaluator, which reads the live grid. -/
def mmStateLiveWin : MinimaxState :=
  { baseState with playing_grid := liveWinGrid, maximising_player := playerX }

/-- Minimax engine whose maximising player is X and whose live grid is still
empty (the state right after construction). -/
def mmStateEmpty : MinimaxState :=
  { baseState with maximising_player := playerX }

/-- A non-terminal searched grid one move away from a full board. -/
def oneCellLeftGrid : Grid := [[1, -1, 1], [-1, -1, 1], [1, 1, 0]]

/-- A terminal searched grid: X has completed the top row. -/
def terminalWinGrid : Grid := [[1, 1, 1], [-1, -1, 0], [0, 0, 0]]

/-- A grid whose north-east and south-east diagonals through the centre are
both winning lines of X marks. -/
def doubleDiagonalGrid : Grid := [[1, 0, 1], [0, 1, 0], [1, 0, 1]]

/-- The directions in the order asserted by the spec: row (1,0), column
(0,1), south-east diagonal (1,1), north-east diagonal (1,-1), following the
direction naming of spec section 3.  Stated for comparison with the order
the source actually uses. -/
def claimed_search_directions : List (Int × Int) := [(1, 0), (0, 1), (1, 1), (1, -1)]

/-- The detector run with the direction order the spec claims, for
comparison against win_check_and_location_search. -/
def spec_ordered_win_check (k : Nat) (g : Grid) (last_played_index : Int × Int)
    (get_win_location : Bool) : Bool × Option (List (Int × Int)) :=
  win_search_loop k g last_played_index get_win_location claimed_search_directions

/-- Setup parameters with a win length exceeding both board dimensions. -/
def infeasibleParams : NoughtsAndCrossesEssentialParameters :=
  { game_rows_m := 2, game_cols_n := 2, win_length_k := 5,
    player_x := playerX, player_o := playerO, starting_player_value := some 1 }

/-- Setup parameters with zero rows. -/
def zeroRowParams : NoughtsAndCrossesEssentialParameters :=
  { game_rows_m := 0, game_cols_n := 3, win_length_k := 3,
    player_x := playerX, player_o := playerO, starting_player_value := some 1 }

/-- An engine state whose starting player has never been set. -/
def unsetStartState : GameState := { baseState with starting_player_value := none }

/-- The signed count difference of the claim: number of cells marked +1
minus number of cells marked -1. -/
def countDiff (g : Grid) : Int :=
  (g.flatten.count 1 : Int) - (g.flatten.count (-1) : Int)

/-- The grids reachable from the all-empty m-by-n board by a sequence of
legal (in-bounds, successful) mark operations with starting player value s:
the state space generated by NoughtsAndCrosses.mark_board. -/
inductive Reachable (s : Int) (m n : Nat) : Grid → Prop where
  | init : Reachable s m n (zeroGrid m n)
  | mark (g : Grid) (idx : Nat × Nat) (g' : Grid) (h : Reachable s m n g)
      (hr : idx.1 < m) (hc : idx.2 < n)
      (hm : mark_board_grid s g idx = .ok g') : Reachable s m n g'

/-- A list of integers each of absolute value at most 1 has a sum of
absolute value at most its length. -/
theorem natAbs_sum_le (l : List Int) (h : ∀ v ∈ l, v.natAbs ≤ 1) :
    l.sum.natAbs ≤ l.length := by
  induction l with
  | nil => simp
  | cons a t ih =>
    simp only [List.sum_cons, List.length_cons]
    calc (a + t.sum).natAbs ≤ a.natAbs + t.sum.natAbs := Int.natAbs_add_le _ _
      _ ≤ 1 + t.length :=
        Nat.add_le_add (h a (by simp)) (ih fun v hv => h v (by simp [hv]))
      _ = t.length + 1 := Nat.add_comm _ _

/-- The initial accumulator bounds a maximum fold from below. -/
theorem init_le_foldl_max (l : List Nat) (a : Nat) : a ≤ l.foldl Nat.max a := by
  induction l generalizing a with
  | nil => simp
  | cons b t ih => exact le_trans (Nat.le_max_left a b) (ih (Nat.max a b))

/-- A maximum fold is bounded by any bound on the accumulator and the
elements. -/
theorem foldl_max_le (l : List Nat) (K : Nat) :
    ∀ a, a ≤ K → (∀ x ∈ l, x ≤ K) → l.foldl Nat.max a ≤ K := by
  induction l with
  | nil => intro a ha _; simpa
  | cons b t ih =>
    intro a ha h
    exact ih (Nat.max a b) (max_le ha (h b (by simp))) fun x hx => h x (by simp [hx])

/-- Every element bounds a maximum fold from below. -/
theorem mem_le_foldl_max (l : List Nat) : ∀ a x, x ∈ l → x ≤ l.foldl Nat.max a := by
  induction l with
  | nil => intro a x hx; cases hx
  | cons b t ih =>
    intro a x hx
    rcases List.mem_cons.mp hx with hxb | hm
    · rw [hxb]
      exact le_trans (Nat.le_max_right a b) (init_le_foldl_max t (Nat.max a b))
    · exact ih (Nat.max a b) x hm

/-- A maximum fold is either the initial accumulator or an element. -/
theorem foldl_max_eq_init_or_mem (l : List Nat) :
    ∀ a, l.foldl Nat.max a = a ∨ l.foldl Nat.max a ∈ l := by
  induction l with
  | nil => intro a; left; rfl
  | cons b t ih =>
    intro a
    simp only [List.foldl_cons]
    rcases ih (Nat.max a b) with h | h
    · rcases max_choice a b with hab | hab
      · have hab' : Nat.max a b = a := hab
        left; rw [h, hab']
      · have hab' : Nat.max a b = b := hab
        right; rw [h, hab']; exact List.mem_cons_self _ _
    · right; exact List.mem_cons_of_mem _ h

/-- listMax is bounded by any bound on the elements. -/
theorem listMax_le (l : List Nat) (K : Nat) (h : ∀ x ∈ l, x ≤ K) : listMax l ≤ K :=
  foldl_max_le l K 0 (Nat.zero_le K) h

/-- Every element is at most listMax. -/
theorem le_listMax (l : List Nat) (x : Nat) (hx : x ∈ l) : x ≤ listMax l :=
  mem_le_foldl_max l 0 x hx

/-- listMax is zero or attained by an element. -/
theorem listMax_mem_or_zero (l : List Nat) : listMax l = 0 ∨ listMax l ∈ l :=
  foldl_max_eq_init_or_mem l 0

/-- For a nonzero target below which all elements stay, the maximum hits the
target exactly when the target is an element. -/
theorem listMax_eq_iff_mem (l : List Nat) (k : Nat) (hk : k ≠ 0)
    (hb : ∀ x ∈ l, x ≤ k) : listMax l = k ↔ k ∈ l := by
  constructor
  · intro h
    rcases listMax_mem_or_zero l with h0 | hm
    · omega
    · rwa [h] at hm
  · intro hm
    exact le_antisymm (listMax_le l k hb) (le_listMax l k hm)

/-- Claim C4: for every playing grid, get_player_turn returns the starting
player's marking value when the sum of all cell values is zero, and the
other player's marking (its negation) when the sum is nonzero. -/
theorem C4_get_player_turn_parity (s : Int) (g : Grid) (hs : s = 1 ∨ s = -1) :
    (gridSum g = 0 → get_player_turn s g = .ok s) ∧
    (gridSum g ≠ 0 → get_player_turn s g = .ok (-s)) := by
  constructor
  · intro h0
    rcases hs with rfl | rfl <;>
      simp [get_player_turn, h0, BoardMarking_value, BoardMarking_X, BoardMarking_O]
  · intro hne
    rcases hs with rfl | rfl <;>
      simp [get_player_turn, hne, BoardMarking_value, BoardMarking_X, BoardMarking_O]

/-- Witness for C4 on a concrete grid with nonzero sum and the X starting
player. -/
theorem C4_witness :
    ((1 : Int) = 1 ∨ (1 : Int) = -1) ∧
    (gridSum liveWinGrid = 0 → get_player_turn 1 liveWinGrid = .ok 1) ∧
    (gridSum liveWinGrid ≠ 0 → get_player_turn 1 liveWinGrid = .ok (-1)) :=
  ⟨Or.inl rfl, C4_get_player_turn_parity 1 liveWinGrid (Or.inl rfl)⟩

/-- Entries of the searched array are grid cells read inside the bounds
filter, so a grid of markings in -1, 0, 1 yields entries of absolute value
at most 1. -/
theorem array_to_search_bound (k : Nat) (g : Grid) (last d : Int × Int)
    (hcells : ∀ r c, r < shape0 g → c < shape1 g →
      cell g r c = -1 ∨ cell g r c = 0 ∨ cell g r c = 1) :
    ∀ v ∈ array_to_search k g last d, v.natAbs ≤ 1 := by
  intro v hv
  simp only [array_to_search, List.mem_map] at hv
  obtain ⟨p, hp, rfl⟩ := hv
  simp only [valid_indexes_to_search, List.mem_filter, decide_eq_true_eq] at hp
  obtain ⟨-, h1, h2, h3, h4⟩ := hp
  have hr : p.1.toNat < shape0 g := by omega
  have hc : p.2.toNat < shape1 g := by omega
  have hcell := hcells p.1.toNat p.2.toNat hr hc
  simp only [cellI, if_pos (And.intro h1 h3)]
  rcases hcell with h | h | h <;> rw [h] <;> decide

/-- Per-direction equivalence for the detector: the convolution-and-max test
of the source reports a streak exactly when some width-k window of the
clipped searched sequence has a sum of absolute value k.  The short-sequence
branch of the valid-mode convolution (sequence shorter than the kernel)
cannot reach k because its only value is the total sum, of absolute value
below k. -/
theorem winning_streak_found_iff (k : Nat) (g : Grid) (last d : Int × Int)
    (hk : 1 ≤ k) (hb : ∀ v ∈ array_to_search k g last d, v.natAbs ≤ 1) :
    winning_streak_found k g last d = true ↔
    (∃ i, i + k ≤ (array_to_search k g last d).length ∧
      ((((array_to_search k g last d).drop i).take k).sum).natAbs = k) := by
  have hk0 : k ≠ 0 := by omega
  unfold winning_streak_found streak_lengths
  rw [decide_eq_true_eq]
  by_cases hlen : k ≤ (array_to_search k g last d).length
  · rw [windowSums, if_pos hlen]
    have hbound : ∀ x ∈ (((List.range ((array_to_search k g last d).length + 1 - k)).map
        fun i => (((array_to_search k g last d).drop i).take k).sum).map Int.natAbs), x ≤ k := by
      intro x hx
      simp only [List.mem_map, List.mem_range] at hx
      obtain ⟨y, ⟨i, _, rfl⟩, rfl⟩ := hx
      calc ((((array_to_search k g last d).drop i).take k).sum).natAbs
          ≤ (((array_to_search k g last d).drop i).take k).length := by
            refine natAbs_sum_le _ fun v hv => hb v ?_
            exact List.mem_of_mem_drop (List.mem_of_mem_take hv)
        _ ≤ k := by
            rw [List.length_take]
            exact min_le_left _ _
    rw [listMax_eq_iff_mem _ k hk0 hbound]
    constructor
    · intro hmem
      simp only [List.mem_map, List.mem_range] at hmem
      obtain ⟨y, ⟨i, hi, rfl⟩, hy⟩ := hmem
      exact ⟨i, by omega, hy⟩
    · intro ⟨i, hi, hsum⟩
      simp only [List.mem_map, List.mem_range]
      exact ⟨(((array_to_search k g last d).drop i).take k).sum, ⟨i, by omega, rfl⟩, hsum⟩
  · push_neg at hlen
    rw [windowSums, if_neg (by omega)]
    have hsumle : ((array_to_search k g last d).sum).natAbs ≤
        (array_to_search k g last d).length := natAbs_sum_le _ hb
    constructor
    · intro h
      have hle : listMax ((List.replicate (k + 1 - (array_to_search k g last d).length)
          ((array_to_search k g last d).sum)).map Int.natAbs) ≤
          (array_to_search k g last d).length := by
        refine listMax_le _ _ fun x hx => ?_
        rw [List.map_replicate] at hx
        rw [List.eq_of_mem_replicate hx]
        exact hsumle
      omega
    · intro ⟨i, hi, _⟩
      omega

/-- The boolean component of the direction loop is the disjunction of the
per-direction streak tests, independently of whether the location is
requested. -/
theorem win_search_loop_fst (k : Nat) (g : Grid) (last : Int × Int) (loc : Bool) :
    ∀ ds, (win_search_loop k g last loc ds).1 =
      ds.any fun d => winning_streak_found k g last d := by
  intro ds
  induction ds with
  | nil => rfl
  | cons d t ih =>
    by_cases h : winning_streak_found k g last d = true
    · cases loc <;> simp [win_search_loop, h]
    · simp only [Bool.not_eq_true] at h
      simp [win_search_loop, h, ih]

/-- Claim C2: for every playing grid of markings in -1, 0, 1 with an
in-bounds last-played cell, the detector reports a win if and only if, along
one of the four directions, some width-k window of the clipped sequence of
cells through the last-played cell sums to absolute value k.  In particular
a board whose only length-k line of identical nonzero markings runs through
the last-played cell is reported as a win, and a board with no such window
is not. -/
theorem C2_win_check_iff_window (k : Nat) (g : Grid) (last : Int × Int)
    (getLoc : Bool) (hk : 1 ≤ k)
    (_hlast : 0 ≤ last.1 ∧ last.1 < (shape0 g : Int) ∧ 0 ≤ last.2 ∧ last.2 < (shape1 g : Int))
    (hcells : ∀ r c, r < shape0 g → c < shape1 g →
      cell g r c = -1 ∨ cell g r c = 0 ∨ cell g r c = 1) :
    (win_check_and_location_search k g last getLoc).1 = true ↔
      SpecLineWin k g last := by
  unfold win_check_and_location_search SpecLineWin
  rw [win_search_loop_fst, List.any_eq_true]
  constructor
  · intro ⟨d, hd, hw⟩
    exact ⟨d, hd, (winning_streak_found_iff k g last d hk
      (array_to_search_bound k g last d hcells)).mp hw⟩
  · intro ⟨d, hd, hw⟩
    exact ⟨d, hd, (winning_streak_found_iff k g last d hk
      (array_to_search_bound k g last d hcells)).mpr hw⟩

/-- Witness for C2 on a concrete 3-by-3 board whose top row is a winning
X line through the last-played cell (0, 2). -/
theorem C2_witness :
    (1 ≤ 3 ∧ (0 : Int) ≤ 0 ∧ (0 : Int) < 3 ∧ (0 : Int) ≤ 2 ∧ (2 : Int) < 3) ∧
    ((win_check_and_location_search 3 terminalWinGrid (0, 2) false).1 = true ↔
      SpecLineWin 3 terminalWinGrid (0, 2)) :=
  ⟨by decide, C2_win_check_iff_window 3 terminalWinGrid (0, 2) false (by decide)
    (by decide) (by
      intro r c hr hc
      rw [show shape0 terminalWinGrid = 3 from rfl] at hr
      rw [show shape1 terminalWinGrid = 3 from rfl] at hc
      interval_cases r <;> interval_cases c <;> decide)⟩

/-- findIdx returns exactly the first index satisfying the predicate. -/
theorem findIdx_spec_first {α : Type} (p : α → Bool) :
    ∀ (l : List α) (j : Nat) (hj : j < l.length), p (l.get ⟨j, hj⟩) = true →
      (∀ i (hi : i < l.length), i < j → p (l.get ⟨i, hi⟩) = false) →
      l.findIdx p = j := by
  intro l
  induction l with
  | nil => intro j hj _ _; simp at hj
  | cons a t ih =>
    intro j hj hpj hfirst
    cases j with
    | zero =>
      have hpa : p a = true := hpj
      simp [List.findIdx_cons, hpa]
    | succ j' =>
      have hpa : p a = false := hfirst 0 (by simp) (Nat.succ_pos j')
      simp only [List.findIdx_cons, hpa, cond_false]
      have hj' : j' < t.length := by simpa using hj
      rw [ih j' hj' (by simpa using hpj)
        fun i hi hij => by simpa using hfirst (i + 1) (by simpa using hi) (by omega)]

/-- When the location is requested, the loop returns at the first direction
whose streak test fires, reporting that direction's location slice. -/
theorem win_search_loop_find (k : Nat) (g : Grid) (last : Int × Int) :
    ∀ (ds : List (Int × Int)) (d : Int × Int),
      ds.find? (fun d => winning_streak_found k g last d) = some d →
      win_search_loop k g last true ds =
        (true, some (win_streak_location_indexes k g last d)) := by
  intro ds
  induction ds with
  | nil => intro d h; simp at h
  | cons d0 t ih =>
    intro d h
    by_cases h0 : winning_streak_found k g last d0 = true
    · rw [List.find?_cons_of_pos _ h0] at h
      cases h
      simp [win_search_loop, h0]
    · have h0' : winning_streak_found k g last d0 = false := by
        simpa using h0
      rw [List.find?_cons_of_neg _ (by simp [h0'])] at h
      simp only [win_search_loop, h0', Bool.false_eq_true, if_false]
      exact ih d h

/-- Claim C7 (amended): the detector checks the directions in the fixed
source order row (1,0), column (0,1), north-east diagonal (1,-1),
south-east diagonal (1,1) - the two diagonals in the opposite order to the
claim - and returns at the first direction of that order in which a win is
found; with get_win_location set, the location returned is the k cell
positions of the first width-k window of that direction's clipped sequence
whose sum reaches absolute value k. -/
theorem C7_first_direction_first_window (k : Nat) (g : Grid) (last : Int × Int)
    (d : Int × Int) (j : Nat)
    (hd : get_search_directions.find? (fun d => winning_streak_found k g last d) = some d)
    (hjk : j + k ≤ (array_to_search k g last d).length)
    (hj : ((((array_to_search k g last d).drop j).take k).sum).natAbs = k)
    (hjfirst : ∀ i, i < j →
      ((((array_to_search k g last d).drop i).take k).sum).natAbs ≠ k) :
    win_check_and_location_search k g last true =
      (true, some (((valid_indexes_to_search k g last d).drop j).take k)) := by
  have hklen : k ≤ (array_to_search k g last d).length := by omega
  have hlen : (streak_lengths k g last d).length =
      (array_to_search k g last d).length + 1 - k := by
    simp [streak_lengths, windowSums, if_pos hklen]
  have hget : ∀ i (hi : i < (streak_lengths k g last d).length),
      (streak_lengths k g last d).get ⟨i, hi⟩ =
        ((((array_to_search k g last d).drop i).take k).sum).natAbs := by
    intro i hi
    simp [streak_lengths, windowSums, if_pos hklen, List.get_eq_getElem,
      List.getElem_map, List.getElem_range]
  have hfind : (streak_lengths k g last d).findIdx (fun x => decide (x = k)) = j := by
    have hjlen : j < (streak_lengths k g last d).length := by omega
    refine findIdx_spec_first _ _ j hjlen ?_ ?_
    · rw [hget j hjlen]
      simpa using hj
    · intro i hi hij
      rw [hget i hi]
      simpa using hjfirst i hij
  unfold win_check_and_location_search
  rw [win_search_loop_find k g last get_search_directions d hd]
  simp only [win_streak_location_indexes]
  rw [hfind]

/-- Counterexample to C7 as stated: on a board whose south-east and
north-east diagonals through the centre are both winning X lines, the source
returns the north-east diagonal cells, while checking the directions in the
order the claim states (row, column, south-east, north-east) would return
the south-east diagonal cells. -/
theorem C7_counterexample :
    win_check_and_location_search 3 doubleDiagonalGrid (1, 1) true =
      (true, some [(0, 2), (1, 1), (2, 0)]) ∧
    spec_ordered_win_check 3 doubleDiagonalGrid (1, 1) true =
      (true, some [(0, 0), (1, 1), (2, 2)]) ∧
    ([((0 : Int), (2 : Int)), (1, 1), (2, 0)] ≠
      [((0 : Int), (0 : Int)), (1, 1), (2, 2)]) := by
  refine ⟨by decide, by decide, by decide⟩

/-- Witness for C7 on the double-diagonal board: the first winning direction
in the source order is the north-east diagonal (1,-1), with its first
winning window at offset 0. -/
theorem C7_witness :
    (get_search_directions.find?
      (fun d => winning_streak_found 3 doubleDiagonalGrid (1, 1) d) = some (1, -1)) ∧
    win_check_and_location_search 3 doubleDiagonalGrid (1, 1) true =
      (true, some (((valid_indexes_to_search 3 doubleDiagonalGrid (1, 1) (1, -1)).drop 0).take 3)) :=
  ⟨by decide, C7_first_direction_first_window 3 doubleDiagonalGrid (1, 1) (1, -1) 0
    (by decide) (by decide) (by decide) (fun i hi => absurd hi (Nat.not_lt_zero i))⟩

/-- Claim C6 (amended): construction performs no validation of the win
length or of non-positive dimensions; it fails only when a dimension is
negative (the numpy array allocation), and otherwise always produces an
engine instance carrying the given parameters and the all-zero grid. -/
theorem C6_amended (p : NoughtsAndCrossesEssentialParameters) (dc : Int) :
    (p.game_rows_m < 0 ∨ p.game_cols_n < 0 →
      NoughtsAndCrosses_init p dc = .error "ValueError: negative dimensions are not allowed") ∧
    (¬(p.game_rows_m < 0 ∨ p.game_cols_n < 0) →
      ∃ st, NoughtsAndCrosses_init p dc = .ok st ∧
        st.win_length_k = p.win_length_k ∧ st.game_rows_m = p.game_rows_m ∧
        st.game_cols_n = p.game_cols_n ∧
        st.playing_grid = zeroGrid p.game_rows_m.toNat p.game_cols_n.toNat) := by
  constructor
  · intro h
    unfold NoughtsAndCrosses_init
    rw [if_pos h]
  · intro h
    unfold NoughtsAndCrosses_init
    rw [if_neg h]
    exact ⟨_, rfl, rfl, rfl, rfl, rfl⟩

/-- Counterexample to C6 as stated: a win length of 5 on a 2-by-2 board (no
win feasible) and a zero row count both construct an engine instance
without any configuration error. -/
theorem C6_counterexample :
    NoughtsAndCrosses_init infeasibleParams 0 =
      .ok { game_rows_m := 2, game_cols_n := 2, win_length_k := 5,
            player_x := playerX, player_o := playerO, starting_player_value := some 1,
            draw_count := 0, playing_grid := zeroGrid 2 2,
            search_directions := get_search_directions } ∧
    NoughtsAndCrosses_init zeroRowParams 0 =
      .ok { game_rows_m := 0, game_cols_n := 3, win_length_k := 3,
            player_x := playerX, player_o := playerO, starting_player_value := some 1,
            draw_count := 0, playing_grid := zeroGrid 0 3,
            search_directions := get_search_directions } :=
  ⟨by decide, by decide⟩

/-- Witness for C6 (amended) at the infeasible-win-length parameters: the
non-negative branch applies and produces the instance. -/
theorem C6_witness :
    ¬(infeasibleParams.game_rows_m < 0 ∨ infeasibleParams.game_cols_n < 0) ∧
    (∃ st, NoughtsAndCrosses_init infeasibleParams 0 = .ok st ∧
      st.win_length_k = infeasibleParams.win_length_k ∧
      st.game_rows_m = infeasibleParams.game_rows_m ∧
      st.game_cols_n = infeasibleParams.game_cols_n ∧
      st.playing_grid = zeroGrid infeasibleParams.game_rows_m.toNat
        infeasibleParams.game_cols_n.toNat) :=
  ⟨by decide, (C6_amended infeasibleParams 0).2 (by decide)⟩

/-- Claim C8 (amended): set_starting_player rejects a value outside the
StartingPlayer choices with a ValueError only when the engine's stored
starting_player_value is already set; when the stored value is None, any
input - including one outside the enumeration - silently triggers the
random starting-player assignment instead. -/
theorem C8_amended (st : GameState) (x : Int) (coin : Bool)
    (hset : st.starting_player_value ≠ none)
    (h0 : x ≠ StartingPlayer_RANDOM) (h1 : x ≠ StartingPlayer_PLAYER_X)
    (h2 : x ≠ StartingPlayer_PLAYER_O) :
    set_starting_player st (some x) coin =
      .error "ValueError: starting_player_value is not in the StartingPlayer Enum" := by
  simp [set_starting_player, h0, h1, h2, hset]

/-- Counterexample to C8 as stated: in the engine state whose starting
player was never set, the out-of-enumeration input 5 does not raise; the
random branch fires and assigns a starting player. -/
theorem C8_counterexample :
    unsetStartState.starting_player_value = none ∧
    set_starting_player unsetStartState (some 5) true =
      .ok { unsetStartState with starting_player_value := some 1 } :=
  ⟨rfl, by decide⟩

/-- Witness for C8 (amended) on a state with the starting player set and
the out-of-enumeration input 5. -/
theorem C8_witness :
    (baseState.starting_player_value ≠ none ∧ (5 : Int) ≠ StartingPlayer_RANDOM ∧
      (5 : Int) ≠ StartingPlayer_PLAYER_X ∧ (5 : Int) ≠ StartingPlayer_PLAYER_O) ∧
    set_starting_player baseState (some 5) true =
      .error "ValueError: starting_player_value is not in the StartingPlayer Enum" :=
  ⟨by decide, C8_amended baseState 5 true (by decide) (by decide) (by decide) (by decide)⟩

/-- In a well-formed grid every in-bounds row has the declared column
count. -/
theorem row_length_of_wf (g : Grid) (hwf : WFGrid g) (r : Nat) (hr : r < g.length) :
    (g.getD r []).length = shape1 g := by
  rw [List.getD_eq_getElem?_getD, List.getElem?_eq_getElem hr]
  exact hwf _ (List.getElem_mem hr)

/-- Writing a cell in bounds makes that cell hold the written value. -/
theorem cell_setCell_self (g : Grid) (r c : Nat) (v : Int)
    (hr : r < g.length) (hc : c < (g.getD r []).length) :
    cell (setCell g r c v) r c = v := by
  simp only [List.getD_eq_getElem?_getD] at hc
  simp only [cell, setCell, List.getD_eq_getElem?_getD]
  rw [List.getElem?_set_self hr]
  simp only [Option.getD_some]
  rw [List.getElem?_set_self hc]
  rfl

/-- Writing a cell leaves every other cell unchanged. -/
theorem cell_setCell_ne (g : Grid) (r c r' c' : Nat) (v : Int)
    (h : ¬(r' = r ∧ c' = c)) :
    cell (setCell g r c v) r' c' = cell g r' c' := by
  simp only [cell, setCell, List.getD_eq_getElem?_getD]
  by_cases hrr : r' = r
  · subst hrr
    have hcc : c ≠ c' := fun hcc => h ⟨rfl, hcc.symm⟩
    by_cases hrl : r' < g.length
    · rw [List.getElem?_set_self hrl]
      simp only [Option.getD_some]
      rw [List.getElem?_set_ne hcc]
    · have hge : g.length ≤ r' := Nat.le_of_not_lt hrl
      have h1 : (List.set g r' ((g[r']?.getD []).set c v))[r']? = none :=
        List.getElem?_eq_none (by simpa using hge)
      rw [h1, List.getElem?_eq_none (l := g) hge]
  · rw [List.getElem?_set_ne fun hne => hrr hne.symm]

/-- A valid starting marking always yields a turn marking, equal to the
starting value on balanced boards and its negation otherwise. -/
theorem get_player_turn_ok (s : Int) (g : Grid) (hs : s = 1 ∨ s = -1) :
    ∃ v, get_player_turn s g = .ok v ∧
      (gridSum g = 0 → v = s) ∧ (gridSum g ≠ 0 → v = -s) := by
  by_cases hsum : gridSum g = 0
  · refine ⟨s, ?_, fun _ => rfl, fun hne => absurd hsum hne⟩
    rcases hs with rfl | rfl <;>
      simp [get_player_turn, hsum, BoardMarking_value, BoardMarking_X, BoardMarking_O]
  · refine ⟨-s, ?_, fun h0 => absurd h0 hsum, fun _ => rfl⟩
    rcases hs with rfl | rfl <;>
      simp [get_player_turn, hsum, BoardMarking_value, BoardMarking_X, BoardMarking_O]

/-- Claim C5: for every playing grid and in-bounds position, mark_board
raises the illegal-move ValueError exactly when the target cell is non-empty
(raising before any write, so the grid is untouched), and on an empty target
writes exactly the marking value produced by get_player_turn into that cell,
leaving every other cell unchanged. -/
theorem C5_mark_board_semantics (st : GameState) (idx : Nat × Nat) (pg : Option Grid)
    (s : Int) (hst : st.starting_player_value = some s) (hs : s = 1 ∨ s = -1)
    (hwf : WFGrid (pg.getD st.playing_grid))
    (hr : idx.1 < shape0 (pg.getD st.playing_grid))
    (hc : idx.2 < shape1 (pg.getD st.playing_grid)) :
    (cell (pg.getD st.playing_grid) idx.1 idx.2 ≠ 0 →
      mark_board st idx pg = .error "ValueError: mark_board attempted to mark non-empty cell") ∧
    (cell (pg.getD st.playing_grid) idx.1 idx.2 = 0 →
      ∃ st' v, get_player_turn s (pg.getD st.playing_grid) = .ok v ∧
        mark_board st idx pg = .ok (st', setCell (pg.getD st.playing_grid) idx.1 idx.2 v) ∧
        cell (setCell (pg.getD st.playing_grid) idx.1 idx.2 v) idx.1 idx.2 = v ∧
        (∀ r c, ¬(r = idx.1 ∧ c = idx.2) →
          cell (setCell (pg.getD st.playing_grid) idx.1 idx.2 v) r c =
            cell (pg.getD st.playing_grid) r c)) := by
  constructor
  · intro hne
    simp [mark_board, mark_board_grid, hne]
  · intro h0
    obtain ⟨v, hv, -, -⟩ := get_player_turn_ok s (pg.getD st.playing_grid) hs
    have hv' : get_player_turn (st.starting_player_value.getD 0) (pg.getD st.playing_grid) = .ok v := by
      rw [hst]; exact hv
    have hself : cell (setCell (pg.getD st.playing_grid) idx.1 idx.2 v) idx.1 idx.2 = v := by
      refine cell_setCell_self _ _ _ _ hr ?_
      rw [row_length_of_wf _ hwf _ hr]
      exact hc
    have hother : ∀ r c, ¬(r = idx.1 ∧ c = idx.2) →
        cell (setCell (pg.getD st.playing_grid) idx.1 idx.2 v) r c =
          cell (pg.getD st.playing_grid) r c :=
      fun r c hrc => cell_setCell_ne _ _ _ _ _ _ hrc
    cases pg with
    | none =>
      refine ⟨{ st with playing_grid := setCell st.playing_grid idx.1 idx.2 v }, v, hv, ?_, hself, hother⟩
      simp only [Option.getD_none] at h0 hv' ⊢
      simp [mark_board, mark_board_grid, h0, hv']
    | some g0 =>
      refine ⟨st, v, hv, ?_, hself, hother⟩
      simp only [Option.getD_some] at h0 hv' ⊢
      simp [mark_board, mark_board_grid, h0, hv']

/-- Witness for C5: marking the empty corner of the fresh 3-by-3 live grid
writes the starting marking there. -/
theorem C5_witness :
    ∃ st' v, get_player_turn 1 (zeroGrid 3 3) = .ok v ∧
      mark_board baseState (0, 0) none = .ok (st', setCell (zeroGrid 3 3) 0 0 v) := by
  obtain ⟨st', v, hv, hmb, -, -⟩ :=
    (C5_mark_board_semantics baseState (0, 0) none 1 rfl (Or.inl rfl)
      (by
        show ∀ row ∈ zeroGrid 3 3, row.length = shape1 (zeroGrid 3 3)
        intro row hrow
        simp only [zeroGrid] at hrow
        rw [List.eq_of_mem_replicate hrow]
        decide)
      (by decide) (by decide)).2 (by decide)
  exact ⟨st', v, hv, hmb⟩

/-- Setting an in-range entry changes a list sum by the difference of the
new and old entries. -/
theorem sum_set_list (l : List Int) : ∀ (i : Nat) (a : Int), i < l.length →
    (l.set i a).sum = l.sum - l.getD i 0 + a := by
  induction l with
  | nil => intro i a h; simp at h
  | cons b t ih =>
    intro i a h
    cases i with
    | zero =>
      simp only [List.set, List.sum_cons, List.getD_cons_zero]
      ring
    | succ i' =>
      simp only [List.set, List.sum_cons, List.getD_cons_succ]
      rw [ih i' a (by simpa using h)]
      ring

/-- Writing one in-bounds cell changes the grid sum by the difference of the
new and old cell values. -/
theorem gridSum_setCell (g : Grid) (r c : Nat) (v : Int)
    (hr : r < g.length) (hc : c < (g.getD r []).length) :
    gridSum (setCell g r c v) = gridSum g - cell g r c + v := by
  unfold gridSum setCell cell
  rw [List.map_set, sum_set_list _ r _ (by simpa using hr)]
  have hmap : (g.map List.sum).getD r 0 = (g.getD r []).sum := by
    rw [List.getD_eq_getElem?_getD, List.getElem?_map, List.getD_eq_getElem?_getD,
      List.getElem?_eq_getElem hr]
    rfl
  rw [hmap, sum_set_list _ c v hc]
  ring

/-- Every value of a grid after a cell write is the written value or a value
of the original grid. -/
theorem flatten_setCell_subset (g : Grid) (r c : Nat) (v v' : Int)
    (h : v' ∈ (setCell g r c v).flatten) : v' = v ∨ v' ∈ g.flatten := by
  rw [setCell, List.mem_flatten] at h
  obtain ⟨row, hrow, hv'⟩ := h
  rcases List.mem_or_eq_of_mem_set hrow with hmem | rfl
  · right; exact List.mem_flatten.mpr ⟨row, hmem, hv'⟩
  · rcases List.mem_or_eq_of_mem_set hv' with hmem2 | rfl
    · by_cases hrl : r < g.length
      · right
        refine List.mem_flatten.mpr ⟨g.getD r [], ?_, hmem2⟩
        rw [List.getD_eq_getElem?_getD, List.getElem?_eq_getElem hrl]
        exact List.getElem_mem hrl
      · rw [List.getD_eq_getElem?_getD, List.getElem?_eq_none (Nat.le_of_not_lt hrl)] at hmem2
        cases hmem2
    · left; rfl

/-- For entries confined to 0, 1, -1 the list sum equals the count of 1s
minus the count of -1s. -/
theorem sum_eq_count_diff (l : List Int) (h : ∀ v ∈ l, v = 0 ∨ v = 1 ∨ v = -1) :
    l.sum = (l.count 1 : Int) - (l.count (-1) : Int) := by
  induction l with
  | nil => simp
  | cons a t ih =>
    have ht := ih fun v hv => h v (by simp [hv])
    rcases h a (by simp) with rfl | rfl | rfl <;>
      simp [List.count_cons, ht] <;> omega

/-- An in-range default read is a member of the list. -/
theorem getD_mem {a : Type} (l : List a) (c : Nat) (d : a) (hc : c < l.length) :
    l.getD c d ∈ l := by
  rw [List.getD_eq_getElem?_getD, List.getElem?_eq_getElem hc]
  exact List.getElem_mem hc

/-- The inductive invariant of legal play: values stay in 0, 1, -1, the
shape is preserved, and the grid sum oscillates between 0 and the starting
marking. -/
theorem reachable_invariant (s : Int) (m n : Nat) (hs : s = 1 ∨ s = -1) :
    ∀ g, Reachable s m n g →
      (∀ v ∈ g.flatten, v = 0 ∨ v = 1 ∨ v = -1) ∧ g.length = m ∧
      (∀ row ∈ g, row.length = n) ∧ (gridSum g = 0 ∨ gridSum g = s) := by
  intro g hg
  induction hg with
  | init =>
    refine ⟨?_, by simp [zeroGrid], ?_, Or.inl ?_⟩
    · intro v hv
      rw [List.mem_flatten] at hv
      obtain ⟨row, hrow, hv⟩ := hv
      simp only [zeroGrid] at hrow
      rw [List.eq_of_mem_replicate hrow] at hv
      left
      exact List.eq_of_mem_replicate hv
    · intro row hrow
      simp only [zeroGrid] at hrow
      rw [List.eq_of_mem_replicate hrow]
      simp
    · simp [gridSum, zeroGrid, List.map_replicate]
  | mark g idx g' hreach hr hc hm ih =>
    obtain ⟨hcellsI, hlenI, hrowI, hsumI⟩ := ih
    have hrg : idx.1 < g.length := by rw [hlenI]; exact hr
    have hrowmem : g.getD idx.1 [] ∈ g := by
      rw [List.getD_eq_getElem?_getD, List.getElem?_eq_getElem hrg]
      exact List.getElem_mem hrg
    have hcg : idx.2 < (g.getD idx.1 []).length := by rw [hrowI _ hrowmem]; exact hc
    by_cases hcz : cell g idx.1 idx.2 = 0
    · obtain ⟨v, hv, hv0, hvne⟩ := get_player_turn_ok s g hs
      have hg' : g' = setCell g idx.1 idx.2 v := by
        rw [mark_board_grid, if_pos hcz, hv] at hm
        exact (Except.ok.injEq _ _).mp hm |>.symm
      subst hg'
      have hvval : v = s ∨ v = -s := by
        by_cases hsum : gridSum g = 0
        · exact Or.inl (hv0 hsum)
        · exact Or.inr (hvne hsum)
      refine ⟨?_, ?_, ?_, ?_⟩
      · intro v' hv'
        rcases flatten_setCell_subset g idx.1 idx.2 v v' hv' with rfl | hmem
        · rcases hvval with rfl | rfl <;> rcases hs with rfl | rfl <;> norm_num
        · exact hcellsI v' hmem
      · rw [setCell, List.length_set]; exact hlenI
      · intro row hrow
        rw [setCell] at hrow
        rcases List.mem_or_eq_of_mem_set hrow with hmem | rfl
        · exact hrowI row hmem
        · rw [List.length_set]; exact hrowI _ hrowmem
      · rw [gridSum_setCell g idx.1 idx.2 v hrg hcg, hcz]
        by_cases hsum : gridSum g = 0
        · rw [hsum, hv0 hsum]; right; ring
        · rcases hsumI with h0 | hss
          · exact absurd h0 hsum
          · rw [hss, hvne hsum]; left; ring
    · rw [mark_board_grid, if_neg hcz] at hm
      cases hm

/-- Claim C9: after any sequence of legal marks from the all-empty grid,
every cell value is 0, +1 or -1, and the count of +1 cells minus the count
of -1 cells is 0 or the starting player's marking (so 0, +1 or -1, the sign
of a nonzero difference matching who started). -/
theorem C9_legal_play_invariant (s : Int) (m n : Nat) (g : Grid)
    (hs : s = 1 ∨ s = -1) (h : Reachable s m n g) :
    (∀ r c, cell g r c = 0 ∨ cell g r c = 1 ∨ cell g r c = -1) ∧
    (countDiff g = 0 ∨ countDiff g = s) := by
  obtain ⟨hcells, hlen, hrows, hsum⟩ := reachable_invariant s m n hs g h
  constructor
  · intro r c
    by_cases hrl : r < g.length
    · by_cases hcl : c < (g.getD r []).length
      · exact hcells _ (List.mem_flatten.mpr
          ⟨g.getD r [], getD_mem g r [] hrl, getD_mem (g.getD r []) c 0 hcl⟩)
      · left
        show (g.getD r []).getD c 0 = 0
        rw [List.getD_eq_getElem?_getD, List.getElem?_eq_none (Nat.le_of_not_lt hcl)]
        rfl
    · left
      show (g.getD r []).getD c 0 = 0
      rw [List.getD_eq_getElem?_getD (l := g), List.getElem?_eq_none (Nat.le_of_not_lt hrl)]
      rfl
  · have hdiff : countDiff g = gridSum g := by
      rw [countDiff, ← sum_eq_count_diff g.flatten hcells, List.sum_flatten]
      rfl
    rw [hdiff]
    exact hsum

/-- Witness for C9 after one legal mark on the empty 3-by-3 board. -/
theorem C9_witness :
    ((1 : Int) = 1 ∨ (1 : Int) = -1) ∧
    (countDiff (setCell (zeroGrid 3 3) 0 0 1) = 0 ∨
      countDiff (setCell (zeroGrid 3 3) 0 0 1) = 1) := by
  refine ⟨Or.inl rfl, ?_⟩
  have hreach : Reachable 1 3 3 (setCell (zeroGrid 3 3) 0 0 1) :=
    Reachable.mark (zeroGrid 3 3) (0, 0) _ Reachable.init (by decide) (by decide) (by decide)
  exact (C9_legal_play_invariant 1 3 3 _ (Or.inl rfl) hreach).2

/-- A board that is not a draw has at least one available cell. -/
theorem avail_ne_nil (g : Grid) (hd : check_for_draw g = false) :
    get_available_cell_indices g ≠ [] := by
  intro hnil
  unfold check_for_draw at hd
  rw [← Bool.not_eq_true, List.all_eq_true] at hd
  push_neg at hd
  obtain ⟨row, hrow, hrowall⟩ := hd
  simp only [ne_eq, List.all_eq_true] at hrowall
  push_neg at hrowall
  obtain ⟨v, hv, hv0⟩ := hrowall
  have hv0' : v = 0 := by simpa using hv0
  obtain ⟨rI, hrI, hgr⟩ := List.mem_iff_getElem.mp hrow
  obtain ⟨cI, hcI, hrc⟩ := List.mem_iff_getElem.mp hv
  have hrowD : g.getD rI [] = row := by
    rw [List.getD_eq_getElem?_getD, List.getElem?_eq_getElem hrI, hgr]
    rfl
  have hcell : cell g rI cI = 0 := by
    rw [cell, hrowD, List.getD_eq_getElem?_getD, List.getElem?_eq_getElem hcI, hrc]
    exact hv0'
  have hmem : (rI, cI) ∈ get_available_cell_indices g := by
    unfold get_available_cell_indices
    rw [List.mem_flatMap]
    refine ⟨rI, List.mem_range.mpr hrI, ?_⟩
    rw [List.mem_filterMap]
    refine ⟨cI, List.mem_range.mpr ?_, ?_⟩
    · rw [hrowD]; exact hcI
    · rw [if_pos hcell]
  rw [hnil] at hmem
  cases hmem

/-- mark_board with an explicitly supplied grid returns the engine state
unchanged. -/
theorem mark_board_some_state (st : GameState) (idx : Nat × Nat) (g : Grid)
    (p : GameState × Grid) (h : mark_board st idx (some g) = .ok p) : p.1 = st := by
  simp only [mark_board, Option.getD_some] at h
  cases hmg : mark_board_grid (st.starting_player_value.getD 0) g idx with
  | error e =>
    simp only [hmg] at h
    exact Except.noConfusion h
  | ok g' =>
    simp only [hmg, Except.ok.injEq] at h
    rw [← h]

/-- The candidate loop threads the engine state through unchanged, given
that the recursive call does. -/
theorem minimax_loop_state
    (recCall : MinimaxState → Grid → Nat → Bool → XInt → XInt →
      Except String (MinimaxState × PyRet))
    (g : Grid) (depth : Nat) (maxm : Bool)
    (Hrec : ∀ st g2 d mm a b st' r, recCall st g2 d mm a b = .ok (st', r) → st' = st) :
    ∀ (moves : List (Nat × Nat)) (st : MinimaxState) (alpha beta acc : XInt)
      (best : Option (Nat × Nat)) (st' : MinimaxState) (r : PyRet),
      minimax_loop recCall st g depth maxm moves alpha beta acc best = .ok (st', r) →
      st' = st := by
  intro moves
  induction moves with
  | nil =>
    intro st alpha beta acc best st' r h
    simp only [minimax_loop, Except.ok.injEq, Prod.mk.injEq] at h
    exact h.1.symm
  | cons mv rest ih =>
    intro st alpha beta acc best st' r h
    simp only [minimax_loop] at h
    cases hmb : mark_board st.toGameState mv (some g) with
    | error e =>
      simp only [hmb] at h
      exact Except.noConfusion h
    | ok p =>
      obtain ⟨st1, gc⟩ := p
      have hst1 : st1 = st.toGameState := mark_board_some_state _ _ _ _ hmb
      simp only [hmb] at h
      cases hrec : recCall { st1 with maximising_player := st.maximising_player }
          gc (depth + 1) (!maxm) alpha beta with
      | error e =>
        simp only [hrec] at h
        exact Except.noConfusion h
      | ok q =>
        obtain ⟨st2, res⟩ := q
        have hst2 : st2 = st := by
          have := Hrec _ _ _ _ _ _ _ _ hrec
          rw [this, hst1]
        simp only [hrec] at h
        cases res with
        | score sc =>
          cases maxm with
          | true =>
            simp only [if_true] at h
            by_cases hbr : XInt.le beta (xmax alpha (.fin sc)) = true
            · rw [if_pos hbr] at h
              cases h
              exact hst2
            · rw [if_neg hbr] at h
              rw [ih _ _ _ _ _ _ _ h]
              exact hst2
          | false =>
            simp only [Bool.false_eq_true, if_false] at h
            by_cases hbr : XInt.le (xmin beta (.fin sc)) alpha = true
            · rw [if_pos hbr] at h
              cases h
              exact hst2
            · rw [if_neg hbr] at h
              rw [ih _ _ _ _ _ _ _ h]
              exact hst2
        | move m => exact Except.noConfusion h
        | pair s m => exact Except.noConfusion h
        | pynone => exact Except.noConfusion h

/-- The minimax recursion never changes the engine state it is given. -/
theorem minimax_state_frame :
    ∀ (fuel : Nat) (st : MinimaxState) (g : Grid) (d : Nat) (mm : Bool)
      (a b : XInt) (st' : MinimaxState) (r : PyRet),
      minimax fuel st g d mm a b = .ok (st', r) → st' = st := by
  intro fuel
  induction fuel with
  | zero => intro st g d mm a b st' r h; cases h
  | succ f ih =>
    intro st g d mm a b st' r h
    simp only [minimax, minimax_step] at h
    by_cases ht : is_terminal st g = true
    · rw [if_pos ht] at h
      cases heval : evaluate_board_to_maximising_player st g d with
      | error e =>
        simp only [heval] at h
        exact Except.noConfusion h
      | ok sc =>
        simp only [heval, Except.ok.injEq, Prod.mk.injEq] at h
        exact h.1.symm
    · rw [if_neg ht] at h
      cases mm with
      | true =>
        simp only [if_true] at h
        exact minimax_loop_state (minimax f) g d true
          (fun st g2 d2 mm2 a2 b2 st2 r2 hh => ih st g2 d2 mm2 a2 b2 st2 r2 hh)
          _ st _ _ _ _ _ _ h
      | false =>
        simp only [Bool.false_eq_true, if_false] at h
        exact minimax_loop_state (minimax f) g d false
          (fun st g2 d2 mm2 a2 b2 st2 r2 hh => ih st g2 d2 mm2 a2 b2 st2 r2 hh)
          _ st _ _ _ _ _ _ h

/-- A successful candidate loop hands back a bare move: the first scored
candidate always replaces the -inf / +inf initial running score, so
best_move is assigned before any return, and every later return keeps it
assigned. -/
theorem minimax_loop_ok_move
    (recCall : MinimaxState → Grid → Nat → Bool → XInt → XInt →
      Except String (MinimaxState × PyRet))
    (g : Grid) (depth : Nat) (maxm : Bool) :
    ∀ (moves : List (Nat × Nat)) (st : MinimaxState) (alpha beta acc : XInt)
      (best : Option (Nat × Nat)) (st' : MinimaxState) (r : PyRet),
      minimax_loop recCall st g depth maxm moves alpha beta acc best = .ok (st', r) →
      (best = none → acc = (if maxm then XInt.ninf else XInt.pinf) ∧ moves ≠ []) →
      ∃ m, r = .move m := by
  intro moves
  induction moves with
  | nil =>
    intro st alpha beta acc best st' r h hbase
    cases best with
    | some m =>
      simp only [minimax_loop, mkRet, Except.ok.injEq, Prod.mk.injEq] at h
      exact ⟨m, h.2.symm⟩
    | none => exact absurd rfl (hbase rfl).2
  | cons mv rest ih =>
    intro st alpha beta acc best st' r h hbase
    simp only [minimax_loop] at h
    cases hmb : mark_board st.toGameState mv (some g) with
    | error e =>
      simp only [hmb] at h
      exact Except.noConfusion h
    | ok p =>
      obtain ⟨st1, gc⟩ := p
      simp only [hmb] at h
      cases hrec : recCall { st1 with maximising_player := st.maximising_player }
          gc (depth + 1) (!maxm) alpha beta with
      | error e =>
        simp only [hrec] at h
        exact Except.noConfusion h
      | ok q =>
        obtain ⟨st2, res⟩ := q
        simp only [hrec] at h
        cases res with
        | score sc =>
          cases maxm with
          | true =>
            simp only [if_true] at h
            have hbestne : (if XInt.lt acc (XInt.fin sc) = true then some mv else best) ≠ none := by
              cases best with
              | some m0 => cases himp : XInt.lt acc (XInt.fin sc) <;> simp
              | none =>
                rw [show acc = XInt.ninf by simpa using (hbase rfl).1]
                simp [XInt.lt]
            by_cases hbr : XInt.le beta (xmax alpha (.fin sc)) = true
            · rw [if_pos hbr] at h
              cases h
              obtain ⟨m0, hm0⟩ := Option.ne_none_iff_exists'.mp hbestne
              rw [hm0]
              exact ⟨m0, rfl⟩
            · rw [if_neg hbr] at h
              exact ih _ _ _ _ _ _ _ h fun hb => absurd hb hbestne
          | false =>
            simp only [Bool.false_eq_true, if_false] at h
            have hbestne : (if XInt.lt (XInt.fin sc) acc = true then some mv else best) ≠ none := by
              cases best with
              | some m0 => cases himp : XInt.lt (XInt.fin sc) acc <;> simp
              | none =>
                rw [show acc = XInt.pinf by simpa using (hbase rfl).1]
                simp [XInt.lt]
            by_cases hbr : XInt.le (xmin beta (.fin sc)) alpha = true
            · rw [if_pos hbr] at h
              cases h
              obtain ⟨m0, hm0⟩ := Option.ne_none_iff_exists'.mp hbestne
              rw [hm0]
              exact ⟨m0, rfl⟩
            · rw [if_neg hbr] at h
              exact ih _ _ _ _ _ _ _ h fun hb => absurd hb hbestne
        | move m => exact Except.noConfusion h
        | pair s m => exact Except.noConfusion h
        | pynone => exact Except.noConfusion h

/-- Claim C1 (amended): whenever the source minimax returns successfully, a
terminal playing grid yields only a score, and a non-terminal playing grid
yields only the best move, never a (score, move) pair. -/
theorem C1_minimax_return_shape (fuel : Nat) (st : MinimaxState) (g : Grid)
    (depth : Nat) (mm : Bool) (a b : XInt) (st' : MinimaxState) (r : PyRet)
    (h : minimax fuel st g depth mm a b = .ok (st', r)) :
    (is_terminal st g = true → ∃ sc, r = .score sc) ∧
    (is_terminal st g = false → ∃ mv, r = .move mv) := by
  cases fuel with
  | zero => exact Except.noConfusion h
  | succ f =>
    simp only [minimax, minimax_step] at h
    constructor
    · intro ht
      rw [if_pos ht] at h
      cases heval : evaluate_board_to_maximising_player st g depth with
      | error e =>
        simp only [heval] at h
        exact Except.noConfusion h
      | ok sc =>
        simp only [heval, Except.ok.injEq, Prod.mk.injEq] at h
        exact ⟨sc, h.2.symm⟩
    · intro ht
      rw [if_neg (by simp [ht])] at h
      have hne : get_available_cell_indices g ≠ [] := by
        apply avail_ne_nil
        unfold is_terminal at ht
        exact (Bool.or_eq_false_iff.mp ht).2
      cases mm with
      | true =>
        simp only [if_true] at h
        exact minimax_loop_ok_move (minimax f) g depth true _ st _ _ _ _ _ _ h
          fun _ => ⟨by simp, hne⟩
      | false =>
        simp only [Bool.false_eq_true, if_false] at h
        exact minimax_loop_ok_move (minimax f) g depth false _ st _ _ _ _ _ _ h
          fun _ => ⟨by simp, hne⟩

/-- Counterexample to C1 as stated: on a concrete non-terminal grid the
minimax call returns the bare move (2, 2), not a (score, move) pair. -/
theorem C1_counterexample :
    is_terminal mmStateLiveWin oneCellLeftGrid = false ∧
    minimax 3 mmStateLiveWin oneCellLeftGrid 0 true .ninf .pinf =
      .ok (mmStateLiveWin, .move (2, 2)) ∧
    PyRet.isPair (PyRet.move (2, 2)) = false :=
  ⟨by decide, by decide, rfl⟩

/-- Witness for C1 (amended) at the concrete non-terminal grid. -/
theorem C1_witness :
    (minimax 3 mmStateLiveWin oneCellLeftGrid 0 true .ninf .pinf =
      .ok (mmStateLiveWin, .move (2, 2))) ∧
    (is_terminal mmStateLiveWin oneCellLeftGrid = false →
      ∃ mv, PyRet.move (2, 2) = PyRet.move mv) :=
  ⟨by decide, (C1_minimax_return_shape 3 mmStateLiveWin oneCellLeftGrid 0 true
    .ninf .pinf mmStateLiveWin (.move (2, 2)) (by decide)).2⟩

/-- Claim C3 (code bug): the supplied grid is terminal and winning for the
maximising player, so per the claim the evaluator should return
MAX_WIN - depth; instead the source evaluates the engine's live grid (still
empty) and raises the not-terminal ValueError. -/
theorem C3_evaluator_reads_live_grid :
    is_terminal mmStateEmpty terminalWinGrid = true ∧
    get_winning_player_opt mmStateEmpty.toGameState (some terminalWinGrid) = some playerX ∧
    mmStateEmpty.maximising_player = playerX ∧
    evaluate_board_to_maximising_player mmStateEmpty terminalWinGrid 1 =
      .error "ValueError: Attempted to evaluate a playing_grid scenario that was not terminal" :=
  ⟨by decide, by decide, rfl, by decide⟩

/-- Claim C10: marking through an explicitly supplied grid copy leaves the
engine's live playing grid unchanged, and hence a minimax search invocation,
which only ever marks supplied copies, leaves the live playing grid
unchanged. -/
theorem C10_mark_and_search_frame (st : GameState) (idx : Nat × Nat) (g : Grid)
    (fuel : Nat) (mst : MinimaxState) (sg : Grid) (depth : Nat) (mm : Bool)
    (a b : XInt) :
    (∀ st' g', mark_board st idx (some g) = .ok (st', g') →
      st'.playing_grid = st.playing_grid) ∧
    (∀ st' r, minimax fuel mst sg depth mm a b = .ok (st', r) →
      st'.playing_grid = mst.playing_grid) := by
  constructor
  · intro st' g' h
    exact congrArg GameState.playing_grid (mark_board_some_state st idx g (st', g') h)
  · intro st' r h
    exact congrArg (fun s : MinimaxState => s.playing_grid)
      (minimax_state_frame fuel mst sg depth mm a b st' r h)

/-- Witness for C10: a concrete supplied-copy mark and a concrete search,
both leaving the live grid of the engine untouched. -/
theorem C10_witness :
    (mark_board baseState (1, 1) (some liveWinGrid) =
      .ok (baseState, setCell liveWinGrid 1 1 (-1))) ∧
    baseState.playing_grid = baseState.playing_grid ∧
    mmStateLiveWin.playing_grid = mmStateLiveWin.playing_grid :=
  ⟨by decide,
    (C10_mark_and_search_frame baseState (1, 1) liveWinGrid 3 mmStateLiveWin
      oneCellLeftGrid 0 true .ninf .pinf).1 baseState (setCell liveWinGrid 1 1 (-1))
      (by decide),
    (C10_mark_and_search_frame baseState (1, 1) liveWinGrid 3 mmStateLiveWin
      oneCellLeftGrid 0 true .ninf .pinf).2 mmStateLiveWin (.move (2, 2)) (by decide)⟩
